import Mathlib

/-!
Verification of the geo-proximity engine of the well map dashboard
(`well_map_dashboard.py`): the haversine distance function, the radius
filter and the circle-overlay polygon of the dashboard callback, and the
callback's effect on the shared in-memory tables.
-/

open Real RealInnerProductSpace

/-- A geographic location: latitude and longitude in decimal degrees. -/
structure Location where
  lat : ℝ
  lon : ℝ

/-- Degrees-to-radians conversion, `np.radians`. -/
noncomputable def radians (x : ℝ) : ℝ := x * (Real.pi / 180)

/-- Haversine distance in miles (source lines 9–15): with `R = 3958.8`,
`phi1 = radians lat1`, `phi2 = radians lat2`, `dphi = radians (lat2 - lat1)`,
`dlambda = radians (lon2 - lon1)` and
`a = sin (dphi/2)^2 + cos phi1 * cos phi2 * sin (dlambda/2)^2`,
the result is `2 * R * arcsin (sqrt a)`. -/
noncomputable def haversine (lat1 lon1 lat2 lon2 : ℝ) : ℝ :=
  2 * 3958.8 * Real.arcsin (Real.sqrt
    (Real.sin (radians (lat2 - lat1) / 2) ^ 2 +
      Real.cos (radians lat1) * Real.cos (radians lat2) *
        Real.sin (radians (lon2 - lon1) / 2) ^ 2))

/-- Distance operation of spec §4.1 on `Location`s: the haversine of the two
coordinate pairs. -/
noncomputable def distance (a b : Location) : ℝ :=
  haversine a.lat a.lon b.lat b.lon

/-- Formula of spec §4.1 for `distance`, written exactly as the spec states
it: `2R·asin(√(sin²(Δφ/2) + cos φ1 · cos φ2 · sin²(Δλ/2)))` where
`Δφ = φ2 - φ1` and `Δλ = λ2 - λ1` are differences of the already-converted
radian values. -/
noncomputable def distance_spec (a b : Location) : ℝ :=
  2 * 3958.8 * Real.arcsin (Real.sqrt
    (Real.sin ((radians b.lat - radians a.lat) / 2) ^ 2 +
      Real.cos (radians a.lat) * Real.cos (radians b.lat) *
        Real.sin ((radians b.lon - radians a.lon) / 2) ^ 2))

/-- A row of the `wells_map` table: the columns kept from the header CSV
(source lines 29–31). -/
structure Well where
  API_UWI : String
  Latitude : ℝ
  Longitude : ℝ
  ENVOperator : String
  ENVWellType : String
  WellName : String
  County : String

/-- Coordinates of a well row as a `Location`. -/
def Well.loc (w : Well) : Location := ⟨w.Latitude, w.Longitude⟩

/-- A row of the merged production table `df` (source lines 18, 30):
a well identifier, a producing month (as an abstract month index) and a
production volume in BOE. -/
structure ProdRecord where
  API_UWI : String
  ProducingMonth : ℕ
  Prod_BOE : ℝ

/-- Distances from the center to every row of the well table, as computed in
source line 157 (`haversine` applied pointwise to the coordinate columns). -/
noncomputable def well_distances (center : Location) (wells : List Well) : List ℝ :=
  wells.map (fun w => haversine center.lat center.lon w.Latitude w.Longitude)

/-- Radius filter of the dashboard callback (source lines 156–159): each
candidate row is paired with its haversine distance to the center, and the
rows whose distance is at most `radius` are kept, in their original order. -/
noncomputable def filter_within_radius (center : Location) (candidates : List Well)
    (radius : ℝ) : List (Well × ℝ) :=
  (candidates.map
      (fun w => (w, haversine center.lat center.lon w.Latitude w.Longitude))).filter
    (fun p => decide (p.2 ≤ radius))

/-- Radius options of the dropdown (source line 76). -/
def allowed_radii : List ℝ := [1, 2, 5, 10]

lemma radians_sub (x y : ℝ) : radians (x - y) = radians x - radians y := by
  unfold radians; ring

lemma haversine_self (lat lon : ℝ) : haversine lat lon lat lon = 0 := by
  unfold haversine radians
  simp

/-- C5: for every pair of locations, `distance` equals the haversine
great-circle formula `2R·asin(√(sin²(Δφ/2) + cos φ1 · cos φ2 · sin²(Δλ/2)))`
with `R = 3958.8` miles and degree inputs converted to radians. -/
theorem distance_eq_spec_formula (a b : Location) : distance a b = distance_spec a b := by
  unfold distance distance_spec haversine
  rw [radians_sub, radians_sub]

/-- C7: for every location, the distance from the location to itself is 0. -/
theorem distance_self (a : Location) : distance a a = 0 :=
  haversine_self a.lat a.lon

/-- C6: on an empty candidate table the radius filter returns the empty
sequence, for every center and radius. -/
theorem filter_within_radius_nil (center : Location) (radius : ℝ) :
    filter_within_radius center [] radius = [] := rfl

/-- Sample well at (32, -102), the center of spec §8's concrete scenario. -/
def well0 : Well := ⟨"W0", 32, -102, "OpA", "OIL", "Well Zero", "Midland"⟩

/-- Sample well at (32.5, -102), half a degree of latitude north of `well0`. -/
def well1 : Well := ⟨"W1", 32.5, -102, "OpB", "OIL", "Well One", "Midland"⟩

/-- Center of spec §8's concrete scenario. -/
def center0 : Location := ⟨32, -102⟩

/-- C3: membership in the radius filter is exactly the non-strict distance
comparison; the kept rows form a subsequence of the candidates (original
relative order preserved) and each is paired with its computed distance. -/
theorem filter_within_radius_spec (center : Location) (cs : List Well) (r : ℝ)
    (w : Well) (hw : w ∈ cs) :
    ((w, distance center w.loc) ∈ filter_within_radius center cs r ↔
      distance center w.loc ≤ r) ∧
    List.Sublist ((filter_within_radius center cs r).map Prod.fst) cs ∧
    ∀ p ∈ filter_within_radius center cs r, p.2 = distance center p.1.loc := by
  refine ⟨⟨?_, ?_⟩, ?_, ?_⟩
  · intro hmem
    have h := (List.mem_filter.mp hmem).2
    exact of_decide_eq_true h
  · intro hle
    exact List.mem_filter.mpr
      ⟨List.mem_map.mpr ⟨w, hw, rfl⟩, decide_eq_true hle⟩
  · have h1 : List.Sublist (filter_within_radius center cs r)
        (cs.map (fun w => (w, haversine center.lat center.lon w.Latitude w.Longitude))) :=
      List.filter_sublist _
    have h2 := h1.map Prod.fst
    rw [List.map_map] at h2
    have h3 : (Prod.fst ∘ fun w : Well =>
        (w, haversine center.lat center.lon w.Latitude w.Longitude)) = fun w => w := rfl
    rw [h3] at h2
    simpa using h2
  · intro p hp
    have hm := (List.mem_filter.mp hp).1
    obtain ⟨w', _, rfl⟩ := List.mem_map.mp hm
    rfl

theorem filter_within_radius_spec_witness :
    well0 ∈ [well0] ∧
    (((well0, distance center0 well0.loc) ∈ filter_within_radius center0 [well0] 2 ↔
        distance center0 well0.loc ≤ 2) ∧
      List.Sublist ((filter_within_radius center0 [well0] 2).map Prod.fst) [well0] ∧
      ∀ p ∈ filter_within_radius center0 [well0] 2, p.2 = distance center0 p.1.loc) :=
  ⟨List.mem_singleton.mpr rfl,
    filter_within_radius_spec center0 [well0] 2 well0 (List.mem_singleton.mpr rfl)⟩

/-- The first clicked point of a `clickData` payload: its optional
`customdata` list (`[WellName, ENVOperator, API_UWI, ENVWellType, County]`,
source line 183). `none` models a clicked point that carries no
`customdata`, such as a click on the circle overlay. -/
structure ClickPoint where
  customdata : Option (List String)

/-- The shared in-memory tables of the process: the `wells_map` rows, the
optional `distance` column written onto `wells_map` by the callback (absent
at startup), the merged production table `df` and its latest-month slice
`current_month_df`. -/
structure DashboardState where
  wells_map : List Well
  wells_map_distance : Option (List ℝ)
  df : List ProdRecord
  current_month_df : List ProdRecord

/-- Center selection of the callback (source lines 144–155): no click data
selects the first well; a click with `customdata` selects the first well
whose `API_UWI` equals `customdata[2]`; a click without `customdata` falls
back to the first well. `none` models the `IndexError` of `iloc[0]` on an
empty selection. -/
def select_center (clickData : Option ClickPoint) (wells_map : List Well) : Option Well :=
  match clickData with
  | none => wells_map.head?
  | some point =>
    match point.customdata with
    | some cd => (wells_map.filter (fun w => w.API_UWI == cd.getD 2 "")).head?
    | none => wells_map.head?

/-- Body of the dashboard callback after center selection (source lines
156–209): computes the distance column, writes it onto the shared
`wells_map` table (line 158), filters by radius, and derives the reported
metrics. Returns the updated state with the filtered rows, the reported
well count `num_wells` and the total current-month BOE. -/
noncomputable def callback_body (s : DashboardState) (center : Well) (radius : ℝ) :
    DashboardState × List (Well × ℝ) × ℕ × ℝ :=
  let dists := well_distances center.loc s.wells_map
  let filtered := filter_within_radius center.loc s.wells_map radius
  let filtered_ids := filtered.map (fun p => p.1.API_UWI)
  let filtered_current :=
    s.current_month_df.filter (fun pr => filtered_ids.contains pr.API_UWI)
  let total_boe := (filtered_current.map ProdRecord.Prod_BOE).sum
  ({ s with wells_map_distance := some dists }, filtered, filtered.length, total_boe)

/-- The dashboard callback (source lines 143–258): selects the center, then
runs the body; `none` models the uncaught exception when center selection
fails, in which case nothing is written. -/
noncomputable def update_dashboard (s : DashboardState) (clickData : Option ClickPoint)
    (radius : ℝ) : Option (DashboardState × List (Well × ℝ) × ℕ × ℝ) :=
  (select_center clickData s.wells_map).map (fun center => callback_body s center radius)

/-- C9: a click whose point carries no `customdata` resets the center to the
first well of the table — the same default as when no click has occurred —
for every well table; the previously selected well is not retained (the
callback is stateless and has no memory of it). -/
theorem select_center_no_customdata (wells : List Well) (p : ClickPoint)
    (hp : p.customdata = none) :
    select_center (some p) wells = select_center none wells ∧
    select_center none wells = wells.head? := by
  obtain ⟨cd⟩ := p
  simp only at hp
  cases hp
  exact ⟨rfl, rfl⟩

theorem select_center_no_customdata_witness :
    (ClickPoint.mk none).customdata = none ∧
    (select_center (some (ClickPoint.mk none)) [well0] = select_center none [well0] ∧
      select_center none [well0] = [well0].head?) :=
  ⟨rfl, select_center_no_customdata [well0] (ClickPoint.mk none) rfl⟩

/-- Startup state with one well, no distance column yet, and empty
production tables. -/
def state0 : DashboardState := ⟨[well0], none, [], []⟩

/-- C2 counterexample: one invocation of the callback on the startup state
changes the shared `wells_map` table — the callback writes a `distance`
column onto it (source line 158), so the Well table is not identical before
and after the call. -/
theorem callback_mutates_wells_map :
    (update_dashboard state0 none 2).map Prod.fst =
      some { state0 with wells_map_distance := some (well_distances well0.loc [well0]) } ∧
    { state0 with wells_map_distance := some (well_distances well0.loc [well0]) } ≠
      state0 := by
  constructor
  · rfl
  · intro h
    have h2 := congrArg DashboardState.wells_map_distance h
    simp [state0] at h2

/-- C2 (amended): every invocation of the callback leaves the rows of the
Well table and both production tables unchanged; the only write to shared
state is the `distance` column installed on the `wells_map` table, holding
the distances from the current center. -/
theorem callback_frame_effect (s : DashboardState) (clickData : Option ClickPoint)
    (radius : ℝ) :
    ∀ r ∈ update_dashboard s clickData radius,
      r.1.wells_map = s.wells_map ∧ r.1.df = s.df ∧
      r.1.current_month_df = s.current_month_df ∧
      ∃ center, select_center clickData s.wells_map = some center ∧
        r.1.wells_map_distance = some (well_distances center.loc s.wells_map) := by
  intro r hr
  rw [Option.mem_def] at hr
  unfold update_dashboard at hr
  obtain ⟨center, hc, hb⟩ := Option.map_eq_some'.mp hr
  subst hb
  exact ⟨rfl, rfl, rfl, center, hc, rfl⟩

theorem callback_frame_effect_witness :
    callback_body state0 well0 2 ∈ update_dashboard state0 none 2 ∧
    ((callback_body state0 well0 2).1.wells_map = state0.wells_map ∧
      (callback_body state0 well0 2).1.df = state0.df ∧
      (callback_body state0 well0 2).1.current_month_df = state0.current_month_df ∧
      ∃ center, select_center none state0.wells_map = some center ∧
        (callback_body state0 well0 2).1.wells_map_distance =
          some (well_distances center.loc state0.wells_map)) :=
  ⟨rfl, callback_frame_effect state0 none 2 (callback_body state0 well0 2) rfl⟩

lemma select_center_mem (clickData : Option ClickPoint) (wells : List Well) (c : Well)
    (hc : select_center clickData wells = some c) : c ∈ wells := by
  cases clickData with
  | none => exact List.mem_of_mem_head? hc
  | some p =>
    obtain ⟨cd⟩ := p
    cases cd with
    | none => exact List.mem_of_mem_head? hc
    | some l =>
      exact List.mem_of_mem_filter (List.mem_of_mem_head? hc)

/-- C10: in every callback invocation where center selection succeeds (in
particular the well table is nonempty) and the radius comes from the
dropdown's option set, the selected center itself belongs to the filtered
within-radius result with distance 0, so the reported number of wells within
the radius is at least 1. -/
theorem center_always_in_radius (s : DashboardState) (clickData : Option ClickPoint)
    (radius : ℝ) (center : Well)
    (hc : select_center clickData s.wells_map = some center)
    (hr : radius ∈ allowed_radii) :
    (center, 0) ∈ filter_within_radius center.loc s.wells_map radius ∧
    1 ≤ (filter_within_radius center.loc s.wells_map radius).length := by
  have hmem : center ∈ s.wells_map := select_center_mem _ _ _ hc
  have h0 : haversine center.loc.lat center.loc.lon center.Latitude center.Longitude = 0 :=
    haversine_self center.Latitude center.Longitude
  have hrad : (0:ℝ) ≤ radius := by
    simp [allowed_radii] at hr
    rcases hr with h | h | h | h <;> rw [h] <;> norm_num
  have hin : (center, (0:ℝ)) ∈ filter_within_radius center.loc s.wells_map radius := by
    unfold filter_within_radius
    refine List.mem_filter.mpr
      ⟨List.mem_map.mpr ⟨center, hmem, ?_⟩, decide_eq_true hrad⟩
    rw [h0]
  exact ⟨hin, List.length_pos_of_mem hin⟩

theorem center_always_in_radius_witness :
    select_center none state0.wells_map = some well0 ∧ (2:ℝ) ∈ allowed_radii ∧
    ((well0, 0) ∈ filter_within_radius well0.loc state0.wells_map 2 ∧
      1 ≤ (filter_within_radius well0.loc state0.wells_map 2).length) :=
  ⟨rfl, by norm_num [allowed_radii],
    center_always_in_radius state0 none 2 well0 rfl (by norm_num [allowed_radii])⟩

/-- Model of `np.linspace a b num`: `num` evenly spaced samples from `a` to
`b`, both endpoints included: `a + (b - a) * i / (num - 1)` for
`i = 0 .. num - 1`. -/
noncomputable def linspace (a b : ℝ) (num : ℕ) : List ℝ :=
  (List.range num).map (fun i : ℕ => a + (b - a) * (i : ℝ) / ((num - 1 : ℕ) : ℝ))

/-- Circle overlay of the dashboard callback (source lines 193–199): for
each angle of `np.linspace 0 (2*π) segments` (the source fixes
`segments = 100`), the vertex `(center.lat + (radius/69)·cos θ,
center.lon + (radius/(69·cos(radians center.lat)))·sin θ)`; the latitude and
longitude lists built in the source's loop are zipped into a vertex list. -/
noncomputable def boundary_polygon (center : Location) (radius : ℝ) (segments : ℕ) :
    List (ℝ × ℝ) :=
  let angles := linspace 0 (2 * Real.pi) segments
  let circle_lats := angles.map (fun angle => center.lat + radius / 69.0 * Real.cos angle)
  let circle_lons := angles.map (fun angle =>
    center.lon + radius / (69.0 * Real.cos (radians center.lat)) * Real.sin angle)
  circle_lats.zip circle_lons

lemma boundary_polygon_eq_map (center : Location) (radius : ℝ) (segments : ℕ) :
    boundary_polygon center radius segments =
      (List.range segments).map (fun i : ℕ =>
        (center.lat + radius / 69.0 * Real.cos (2 * Real.pi * (i : ℝ) / ((segments - 1 : ℕ) : ℝ)),
         center.lon + radius / (69.0 * Real.cos (radians center.lat)) *
           Real.sin (2 * Real.pi * (i : ℝ) / ((segments - 1 : ℕ) : ℝ)))) := by
  unfold boundary_polygon linspace
  rw [List.zip_map', List.map_map]
  congr 1
  funext i
  simp only [Function.comp_apply, zero_add, sub_zero]

lemma boundary_polygon_getD (center : Location) (radius : ℝ) (segments i : ℕ)
    (hi : i < segments) (d : ℝ × ℝ) :
    (boundary_polygon center radius segments).getD i d =
      (center.lat + radius / 69.0 * Real.cos (2 * Real.pi * (i : ℝ) / ((segments - 1 : ℕ) : ℝ)),
       center.lon + radius / (69.0 * Real.cos (radians center.lat)) *
         Real.sin (2 * Real.pi * (i : ℝ) / ((segments - 1 : ℕ) : ℝ))) := by
  rw [boundary_polygon_eq_map]
  rw [List.getD_eq_getElem _ _
    (by simp only [List.length_map, List.length_range]; exact hi)]
  simp only [List.getElem_map, List.getElem_range]

/-- C1 (amended): `boundary_polygon(center, r, n)` returns exactly `n`
vertices; vertex `i` is `(center.lat + (r/69)·cos θ_i, center.lon +
(r/(69·cos(radians center.lat)))·sin θ_i)` for `θ_i = i·2π/(n-1)`,
`i = 0 .. n-1` — the sweep includes both endpoints 0 and 2π, so the first
and last vertices coincide; in particular for `n = 4` the vertices lie at
angles 0°, 120°, 240° and 360°, and in the spec's concrete scenario vertex 0
is `(32 + 1/69, -102) ≈ (32.01449, -102)`. -/
theorem boundary_polygon_vertices (center : Location) (radius : ℝ) (n i : ℕ)
    (hi : i < n) :
    (boundary_polygon center radius n).length = n ∧
    (boundary_polygon center radius n).getD i (0, 0) =
      (center.lat + radius / 69.0 * Real.cos (2 * Real.pi * (i : ℝ) / ((n - 1 : ℕ) : ℝ)),
       center.lon + radius / (69.0 * Real.cos (radians center.lat)) *
         Real.sin (2 * Real.pi * (i : ℝ) / ((n - 1 : ℕ) : ℝ))) ∧
    (boundary_polygon center0 1 4).getD 0 (0, 0) = (32 + 1 / 69, -102) := by
  refine ⟨?_, boundary_polygon_getD center radius n i hi _, ?_⟩
  · rw [boundary_polygon_eq_map]
    simp only [List.length_map, List.length_range]
  · rw [boundary_polygon_getD center0 1 4 0 (by norm_num)]
    norm_num [center0]

theorem boundary_polygon_vertices_witness :
    1 < 4 ∧
    ((boundary_polygon center0 1 4).length = 4 ∧
      (boundary_polygon center0 1 4).getD 1 (0, 0) =
        (center0.lat + 1 / 69.0 * Real.cos (2 * Real.pi * ((1:ℕ) : ℝ) / (((4:ℕ) - 1 : ℕ) : ℝ)),
         center0.lon + 1 / (69.0 * Real.cos (radians center0.lat)) *
           Real.sin (2 * Real.pi * ((1:ℕ) : ℝ) / (((4:ℕ) - 1 : ℕ) : ℝ))) ∧
      (boundary_polygon center0 1 4).getD 0 (0, 0) = (32 + 1 / 69, -102)) :=
  ⟨by norm_num, boundary_polygon_vertices center0 1 4 1 (by norm_num)⟩

/-- C1 counterexample: at center (32, -102), radius 1, segments 4, vertex 1
of the circle overlay lies at angle 2π/3 (120°), not at the claimed
`θ_1 = 1·2π/4 = π/2` (90°): its latitude is `32 - 1/138`, not
`32 + (1/69)·cos(π/2) = 32`. -/
theorem boundary_polygon_claim_false :
    ((boundary_polygon center0 1 4).getD 1 (0, 0)).1 ≠
      center0.lat + 1 / 69.0 * Real.cos (2 * Real.pi * 1 / 4) := by
  rw [boundary_polygon_getD center0 1 4 1 (by norm_num)]
  have h1 : 2 * Real.pi * ((1:ℕ) : ℝ) / (((4:ℕ) - 1 : ℕ) : ℝ) = Real.pi - Real.pi / 3 := by
    push_cast
    ring
  have h2 : 2 * Real.pi * 1 / 4 = Real.pi / 2 := by ring
  rw [h1, h2, Real.cos_pi_sub, Real.cos_pi_div_three, Real.cos_pi_div_two]
  simp only [center0]
  norm_num

/-- Unit vector in ℝ³ for a latitude/longitude pair in degrees: the point of
the unit sphere the coordinates denote. -/
noncomputable def sphVec (lat lon : ℝ) : EuclideanSpace ℝ (Fin 3) :=
  ![Real.cos (radians lat) * Real.cos (radians lon),
    Real.cos (radians lat) * Real.sin (radians lon),
    Real.sin (radians lat)]

lemma norm_sphVec (lat lon : ℝ) : ‖sphVec lat lon‖ = 1 := by
  rw [EuclideanSpace.norm_eq, Fin.sum_univ_three]
  simp only [sphVec, Matrix.cons_val_zero, Matrix.cons_val_one, Matrix.head_cons,
    Matrix.cons_val_two, Matrix.tail_cons, Real.norm_eq_abs, sq_abs]
  have h1 := Real.sin_sq_add_cos_sq (radians lat)
  have h2 := Real.sin_sq_add_cos_sq (radians lon)
  have h3 : (cos (radians lat) * cos (radians lon)) ^ 2 +
      (cos (radians lat) * sin (radians lon)) ^ 2 + sin (radians lat) ^ 2 = 1 := by nlinarith
  rw [h3, Real.sqrt_one]

lemma inner_sphVec (lat1 lon1 lat2 lon2 : ℝ) :
    ⟪sphVec lat1 lon1, sphVec lat2 lon2⟫ =
      Real.cos (radians lat1) * Real.cos (radians lat2) *
        Real.cos (radians lon2 - radians lon1) +
      Real.sin (radians lat1) * Real.sin (radians lat2) := by
  rw [PiLp.inner_apply, Fin.sum_univ_three]
  simp only [sphVec, Matrix.cons_val_zero, Matrix.cons_val_one, Matrix.head_cons,
    Matrix.cons_val_two, Matrix.tail_cons, RCLike.inner_apply, conj_trivial]
  rw [Real.cos_sub]
  ring

lemma sin_half_sq (x : ℝ) : Real.sin (x / 2) ^ 2 = (1 - Real.cos x) / 2 := by
  have h1 := Real.cos_sq (x / 2)
  have h2 : 2 * (x / 2) = x := by ring
  rw [h2] at h1
  have h3 := Real.sin_sq_add_cos_sq (x / 2)
  linarith

lemma hav_inner (lat1 lon1 lat2 lon2 : ℝ) :
    Real.sin (radians (lat2 - lat1) / 2) ^ 2 +
      Real.cos (radians lat1) * Real.cos (radians lat2) *
        Real.sin (radians (lon2 - lon1) / 2) ^ 2 =
    (1 - ⟪sphVec lat1 lon1, sphVec lat2 lon2⟫) / 2 := by
  rw [inner_sphVec, radians_sub, radians_sub, sin_half_sq, sin_half_sq, Real.cos_sub]
  ring

lemma two_arcsin_sqrt (t : ℝ) (h1 : -1 ≤ t) (h2 : t ≤ 1) :
    2 * Real.arcsin (Real.sqrt ((1 - t) / 2)) = Real.arccos t := by
  have hnn : (0:ℝ) ≤ (1 - t) / 2 := by linarith
  have hs0 : 0 ≤ Real.sqrt ((1 - t) / 2) := Real.sqrt_nonneg _
  have hs1 : Real.sqrt ((1 - t) / 2) ≤ 1 := Real.sqrt_le_one.mpr (by linarith)
  have hsin : Real.sin (Real.arcsin (Real.sqrt ((1 - t) / 2))) = Real.sqrt ((1 - t) / 2) :=
    Real.sin_arcsin (by linarith) hs1
  have hs_nonneg : 0 ≤ Real.arcsin (Real.sqrt ((1 - t) / 2)) := Real.arcsin_nonneg.mpr hs0
  have hs_le : Real.arcsin (Real.sqrt ((1 - t) / 2)) ≤ Real.pi / 2 :=
    Real.arcsin_le_pi_div_two _
  have hcos2 : Real.cos (2 * Real.arcsin (Real.sqrt ((1 - t) / 2))) = t := by
    rw [Real.cos_two_mul']
    have hsq : Real.sin (Real.arcsin (Real.sqrt ((1 - t) / 2))) ^ 2 = (1 - t) / 2 := by
      rw [hsin]
      exact Real.sq_sqrt hnn
    have hcsq := Real.sin_sq_add_cos_sq (Real.arcsin (Real.sqrt ((1 - t) / 2)))
    nlinarith
  calc 2 * Real.arcsin (Real.sqrt ((1 - t) / 2))
      = Real.arccos (Real.cos (2 * Real.arcsin (Real.sqrt ((1 - t) / 2)))) :=
        (Real.arccos_cos (by linarith) (by linarith [Real.pi_pos])).symm
    _ = Real.arccos t := by rw [hcos2]

lemma haversine_eq_arccos (lat1 lon1 lat2 lon2 : ℝ) :
    haversine lat1 lon1 lat2 lon2 =
      3958.8 * Real.arccos ⟪sphVec lat1 lon1, sphVec lat2 lon2⟫ := by
  have habs : |⟪sphVec lat1 lon1, sphVec lat2 lon2⟫| ≤ 1 := by
    have h := abs_real_inner_le_norm (sphVec lat1 lon1) (sphVec lat2 lon2)
    rw [norm_sphVec, norm_sphVec] at h
    simpa using h
  obtain ⟨h1, h2⟩ := abs_le.mp habs
  unfold haversine
  rw [hav_inner, ← two_arcsin_sqrt _ h1 h2]
  ring

lemma arccos_inner_triangle {E : Type} [NormedAddCommGroup E] [InnerProductSpace ℝ E]
    (u v w : E) (hu : ‖u‖ = 1) (hv : ‖v‖ = 1) (hw : ‖w‖ = 1) :
    Real.arccos ⟪u, w⟫ ≤ Real.arccos ⟪u, v⟫ + Real.arccos ⟪v, w⟫ := by
  have hp1 : |⟪u, v⟫| ≤ 1 := by
    have h := abs_real_inner_le_norm u v
    rw [hu, hv] at h
    simpa using h
  have hq1 : |⟪v, w⟫| ≤ 1 := by
    have h := abs_real_inner_le_norm v w
    rw [hv, hw] at h
    simpa using h
  have hr1 : |⟪u, w⟫| ≤ 1 := by
    have h := abs_real_inner_le_norm u w
    rw [hu, hw] at h
    simpa using h
  rcases le_or_lt Real.pi (Real.arccos ⟪u, v⟫ + Real.arccos ⟪v, w⟫) with hcase | hcase
  · exact le_trans (Real.arccos_le_pi _) hcase
  · have hvv : ⟪v, v⟫ = (1:ℝ) := by
      rw [real_inner_self_eq_norm_sq, hv]
      norm_num
    have hpv : ⟪u - ⟪u, v⟫ • v, w - ⟪v, w⟫ • v⟫ = ⟪u, w⟫ - ⟪u, v⟫ * ⟪v, w⟫ := by
      simp only [inner_sub_left, inner_sub_right, real_inner_smul_left,
        real_inner_smul_right, hvv]
      rw [real_inner_comm v u]
      ring
    have hnu : ‖u - ⟪u, v⟫ • v‖ ^ 2 = 1 - ⟪u, v⟫ ^ 2 := by
      rw [norm_sub_sq_real, real_inner_smul_right, norm_smul, hu, hv]
      simp only [Real.norm_eq_abs, mul_one]
      rw [sq_abs]
      ring
    have hnw : ‖w - ⟪v, w⟫ • v‖ ^ 2 = 1 - ⟪v, w⟫ ^ 2 := by
      rw [norm_sub_sq_real, real_inner_smul_right, norm_smul, hw, hv]
      simp only [Real.norm_eq_abs, mul_one]
      rw [sq_abs, real_inner_comm w v]
      ring
    have hnu' : ‖u - ⟪u, v⟫ • v‖ = Real.sqrt (1 - ⟪u, v⟫ ^ 2) := by
      rw [← hnu, Real.sqrt_sq (norm_nonneg _)]
    have hnw' : ‖w - ⟪v, w⟫ • v‖ = Real.sqrt (1 - ⟪v, w⟫ ^ 2) := by
      rw [← hnw, Real.sqrt_sq (norm_nonneg _)]
    have hcs := abs_real_inner_le_norm (u - ⟪u, v⟫ • v) (w - ⟪v, w⟫ • v)
    rw [hnu', hnw', hpv] at hcs
    have hkey : ⟪u, v⟫ * ⟪v, w⟫ -
        Real.sqrt (1 - ⟪u, v⟫ ^ 2) * Real.sqrt (1 - ⟪v, w⟫ ^ 2) ≤ ⟪u, w⟫ := by
      have h2 := neg_abs_le (⟪u, w⟫ - ⟪u, v⟫ * ⟪v, w⟫)
      linarith
    have hcos : Real.cos (Real.arccos ⟪u, v⟫ + Real.arccos ⟪v, w⟫) ≤ ⟪u, w⟫ := by
      rw [Real.cos_add, Real.cos_arccos (abs_le.mp hp1).1 (abs_le.mp hp1).2,
        Real.cos_arccos (abs_le.mp hq1).1 (abs_le.mp hq1).2,
        Real.sin_arccos, Real.sin_arccos]
      exact hkey
    by_contra hlt
    push_neg at hlt
    have h1 : Real.arccos ⟪u, v⟫ + Real.arccos ⟪v, w⟫ ∈ Set.Icc 0 Real.pi :=
      ⟨add_nonneg (Real.arccos_nonneg _) (Real.arccos_nonneg _), hcase.le⟩
    have h2 : Real.arccos ⟪u, w⟫ ∈ Set.Icc 0 Real.pi :=
      ⟨Real.arccos_nonneg _, Real.arccos_le_pi _⟩
    have h3 := Real.strictAntiOn_cos h1 h2 hlt
    rw [Real.cos_arccos (abs_le.mp hr1).1 (abs_le.mp hr1).2] at h3
    linarith

/-- C8: the distance function satisfies the triangle inequality for all
locations: the haversine value equals the sphere radius times the central
angle `arccos ⟪u, v⟫` of the corresponding unit vectors, and central angles
obey the spherical triangle inequality. -/
theorem distance_triangle (a b c : Location) :
    distance a c ≤ distance a b + distance b c := by
  unfold distance
  rw [haversine_eq_arccos, haversine_eq_arccos, haversine_eq_arccos]
  have h := arccos_inner_triangle (sphVec a.lat a.lon) (sphVec b.lat b.lon)
    (sphVec c.lat c.lon) (norm_sphVec _ _) (norm_sphVec _ _) (norm_sphVec _ _)
  linarith

lemma haversine_well1 :
    haversine 32 (-102) 32.5 (-102) = 2 * 3958.8 * (Real.pi / 720) := by
  unfold haversine
  have h1 : ((32.5:ℝ) - 32) = 0.5 := by norm_num
  have h2 : ((-102:ℝ) - -102) = 0 := by norm_num
  rw [h1, h2]
  have h3 : radians 0.5 / 2 = Real.pi / 720 := by unfold radians; ring
  have h4 : radians 0 / 2 = 0 := by unfold radians; ring
  rw [h3, h4, Real.sin_zero]
  have h5 : Real.sin (Real.pi / 720) ^ 2 +
      Real.cos (radians 32) * Real.cos (radians 32.5) * 0 ^ 2 =
      Real.sin (Real.pi / 720) ^ 2 := by ring
  rw [h5]
  have hnn : 0 ≤ Real.sin (Real.pi / 720) :=
    Real.sin_nonneg_of_nonneg_of_le_pi (by positivity) (by nlinarith [Real.pi_pos])
  rw [Real.sqrt_sq hnn]
  rw [Real.arcsin_sin (by nlinarith [Real.pi_pos]) (by nlinarith [Real.pi_pos])]

lemma haversine_well1_bounds :
    34.5 < haversine 32 (-102) 32.5 (-102) ∧ haversine 32 (-102) 32.5 (-102) < 34.6 := by
  rw [haversine_well1]
  constructor
  · nlinarith [Real.pi_gt_d6]
  · nlinarith [Real.pi_lt_d6]

/-- C4: in the concrete scenario with center (32, -102) and radius 2 miles,
the candidate at (32, -102) has distance 0 and is included in the filtered
result, and the candidate at (32.5, -102) has distance ≈ 34.6 miles
(strictly between 34.5 and 34.6) and is excluded. -/
theorem concrete_scenario :
    distance center0 well0.loc = 0 ∧
    (well0, 0) ∈ filter_within_radius center0 [well0, well1] 2 ∧
    34.5 < distance center0 well1.loc ∧ distance center0 well1.loc < 34.6 ∧
    ∀ d : ℝ, (well1, d) ∉ filter_within_radius center0 [well0, well1] 2 := by
  have h00 : haversine center0.lat center0.lon well0.Latitude well0.Longitude = 0 :=
    haversine_self 32 (-102)
  have hb1 : 34.5 < haversine center0.lat center0.lon well1.Latitude well1.Longitude :=
    haversine_well1_bounds.1
  have hb2 : haversine center0.lat center0.lon well1.Latitude well1.Longitude < 34.6 :=
    haversine_well1_bounds.2
  refine ⟨?_, ?_, ?_, ?_, ?_⟩
  · exact h00
  · unfold filter_within_radius
    refine List.mem_filter.mpr
      ⟨List.mem_map.mpr ⟨well0, ?_, ?_⟩, decide_eq_true (by norm_num : (0:ℝ) ≤ 2)⟩
    · exact List.mem_cons_self well0 [well1]
    · show (well0, haversine center0.lat center0.lon well0.Latitude well0.Longitude) =
        (well0, 0)
      rw [h00]
  · exact hb1
  · exact hb2
  · intro d hd
    unfold filter_within_radius at hd
    have hdle : d ≤ 2 := of_decide_eq_true (List.mem_filter.mp hd).2
    obtain ⟨w, hw, heq⟩ := List.mem_map.mp (List.mem_filter.mp hd).1
    simp only [Prod.mk.injEq] at heq
    obtain ⟨hww, hdd⟩ := heq
    subst hww
    rcases List.mem_cons.mp hw with h0 | h1
    · have h2 := congrArg Well.API_UWI h0
      simp [well0, well1] at h2
    · rw [← hdd] at hdle
      linarith
